import Mathlib

/-!
Verification of the server-side request/response pipeline: a shallow
embedding of its path normalisation, route matching, cookie scoping,
CSP building, action dispatch, per-depth page rendering with error
boundaries, and conditional-request (ETag) handling, together with
theorems settling the specification's claims about those components.

JavaScript strings are modelled as `List Char`; JavaScript records used
as string-keyed maps are modelled as association lists with last-write
semantics via `upsert`.
-/

namespace SvelteKit

/-- JavaScript strings, modelled as lists of characters. -/
abbrev Str := List Char

/-- Literal helper: a Lean string literal viewed in the character-list model. -/
def str (x : String) : Str := x.data

/-- JS `a.endsWith(b)`. -/
def js_endsWith (a b : Str) : Bool := b.isSuffixOf a

/-- JS `a.startsWith(b)`. -/
def js_startsWith (a b : Str) : Bool := b.isPrefixOf a

/-- Trailing-slash policies accepted by `normalize_path`. -/
inductive TrailingSlash
  | never
  | always
  | ignore
deriving DecidableEq, Repr

/-- Embedding of `normalize_path(path, trailing_slash)`: returns the path
unchanged for `/` or the `ignore` policy, drops one trailing slash under
`never`, and appends one under `always` when absent. -/
def normalize_path (path : Str) (trailing_slash : TrailingSlash) : Str :=
  if path = str "/" ∨ trailing_slash = .ignore then path
  else if trailing_slash = .never then
    if js_endsWith path (str "/") then path.dropLast else path
  else if trailing_slash = .always ∧ ¬ js_endsWith path (str "/") then
    path ++ str "/"
  else path

/-- The fixed data-request marker segment `/__data.json`. -/
def DATA_SUFFIX : Str := str "/__data.json"

/-- Embedding of `has_data_suffix`. -/
def has_data_suffix (pathname : Str) : Bool := js_endsWith pathname DATA_SUFFIX

/-- Embedding of `add_data_suffix`: `pathname.replace(/\/$/, '') + DATA_SUFFIX`
(one trailing slash removed, then the suffix appended). -/
def add_data_suffix (pathname : Str) : Str :=
  (if js_endsWith pathname (str "/") then pathname.dropLast else pathname) ++ DATA_SUFFIX

/-- Embedding of `strip_data_suffix`: `pathname.slice(0, -DATA_SUFFIX.length)`
(for short inputs JS `slice` clamps the negative end to 0, as `Nat`
subtraction does here). -/
def strip_data_suffix (pathname : Str) : Str :=
  pathname.take (pathname.length - DATA_SUFFIX.length)

/-- A route parameter descriptor: name, optional type-matcher name, and the
optional/rest/chained flags. -/
structure RouteParam where
  name : Str
  matcher : Option Str
  optional : Bool
  rest : Bool
  chained : Bool
deriving DecidableEq, Repr

/-- JS record assignment `m[k] = v`: replace an existing binding in place,
otherwise append the new binding. -/
def upsert (m : List (Str × Str)) (k : Str) (v : Str) : List (Str × Str) :=
  match m with
  | [] => [(k, v)]
  | (k0, v0) :: rest => if k0 = k then (k, v) :: rest else (k0, v0) :: upsert rest k v

/-- First-match association lookup (JS record read). -/
def assoc_get (m : List (Str × Str)) (k : Str) : Option Str :=
  match m with
  | [] => none
  | (k0, v0) :: rest => if k0 = k then some v0 else assoc_get rest k

/-- JS truthiness of a capture-group value: `undefined` and the empty string
are falsy. -/
def truthy_capture : Option Str → Bool
  | none => false
  | some s => !s.isEmpty

/-- JS `Array.prototype.join('/')`. -/
def join_slash : List Str → Str
  | [] => []
  | [x] => x
  | x :: y :: rest => x ++ ('/' :: join_slash (y :: rest))

/-- The walk of `exec` over the parameter descriptors against the capture
groups `values`, carrying the loop index `i`, the buffered-optional count and
the result record; returns the final record and buffered count, or `none` when
a descriptor rejects the whole candidate. The `chained ∧ rest ∧ buffered`
branch absorbs the skipped values (`values.slice(i - buffered, i + 1)`, truthy
entries only, joined by `/`) and resets the buffer; an `undefined` value fills
rest parameters with the empty string; a matcher failure on an
optional+chained parameter increments the buffer, any other matcher failure
rejects; after a matcher success the buffer is reset when the next descriptor
is a non-rest optional with a truthy next value. -/
def exec_loop (values : List (Option Str)) (matchers : Str → Str → Bool) :
    List RouteParam → Nat → Nat → List (Str × Str) → Option (List (Str × Str) × Nat)
  | [], _, buffered, result => some (result, buffered)
  | param :: rest, i, buffered, result =>
    let value := values.getD (i - buffered) none
    if param.chained ∧ param.rest ∧ buffered ≠ 0 then
      let absorbed := ((values.drop (i - buffered)).take (buffered + 1)).filterMap
        (fun o => match o with
          | some sv => if sv.isEmpty then none else some sv
          | none => none)
      exec_loop values matchers rest (i + 1) 0
        (upsert result param.name (join_slash absorbed))
    else
      match value with
      | none =>
        exec_loop values matchers rest (i + 1) buffered
          (if param.rest then upsert result param.name [] else result)
      | some v =>
        if (match param.matcher with
            | none => true
            | some m => if m.isEmpty then true else matchers m v) then
          let buffered2 :=
            match rest.head? with
            | some next_param =>
              if ¬ next_param.rest ∧ next_param.optional
                  ∧ truthy_capture (values.getD (i + 1) none) then 0
              else buffered
            | none => buffered
          exec_loop values matchers rest (i + 1) buffered2 (upsert result param.name v)
        else if param.optional ∧ param.chained then
          exec_loop values matchers rest (i + 1) (buffered + 1) result
        else none

/-- Embedding of `exec(match, params, matchers)`: the walk runs over
`match.slice(1)` starting with an empty record and a zero buffer; a walk that
ends with a nonzero buffered count rejects the candidate. -/
def exec (mtch : List (Option Str)) (params : List RouteParam)
    (matchers : Str → Str → Bool) : Option (List (Str × Str)) :=
  match exec_loop (mtch.drop 1) matchers params 0 0 [] with
  | none => none
  | some (result, buffered) => if buffered ≠ 0 then none else some result

/-- Cookie scoping options as used by the jar (`domain`, `path`, and the
optional value encoder, defaulting to `encodeURIComponent`). -/
structure CookieOptions where
  domain : Option Str
  path : Option Str
  encode : Option (Str → Str)

/-- A cookie registered during the request via `cookies.set`. -/
structure Cookie where
  name : Str
  value : Str
  options : CookieOptions

/-- Destination of an outbound sub-request (hostname and pathname). -/
structure Destination where
  hostname : Str
  pathname : Str

/-- Embedding of `domain_matches(hostname, constraint)`: a missing (or empty,
hence falsy) constraint matches everything; otherwise a leading dot is
stripped and the hostname must equal the constraint or end with
`.` + constraint. -/
def domain_matches (hostname : Str) (constraint : Option Str) : Bool :=
  match constraint with
  | none => true
  | some c =>
    if c.isEmpty then true
    else
      let normalized := if c.head? = some '.' then c.tail else c
      if hostname = normalized then true
      else js_endsWith hostname ('.' :: normalized)

/-- Embedding of `path_matches(path, constraint)`: a missing (or empty, hence
falsy) constraint matches everything; otherwise a trailing slash is dropped
and the path must equal the constraint or extend it across a `/` boundary. -/
def path_matches (path : Str) (constraint : Option Str) : Bool :=
  match constraint with
  | none => true
  | some c =>
    if c.isEmpty then true
    else
      let normalized := if js_endsWith c (str "/") then c.dropLast else c
      if path = normalized then true
      else js_startsWith path (normalized ++ str "/")

/-- The encoder applied to a cookie's value when it is combined into a
destination header: the cookie's own `encode` option, else the ambient
`encodeURIComponent` (passed in as `enc_uri`). -/
def cookie_encoder (enc_uri : Str → Str) (c : Cookie) : Str → Str :=
  match c.options.encode with
  | some e => e
  | none => enc_uri

/-- Embedding of `get_cookie_header(destination, header)` up to the final
string join: cookies sent by the user agent have lowest precedence, cookies
set during this request (filtered by domain/path match against the
destination, values encoded) come next, and an explicit override header has
highest precedence. -/
def get_cookie_header_map (enc_uri : Str → Str) (initial_cookies : List (Str × Str))
    (new_cookies : List Cookie) (destination : Destination)
    (header : Option (List (Str × Str))) : List (Str × Str) :=
  let combined := new_cookies.foldl
    (fun acc c =>
      if domain_matches destination.hostname c.options.domain
          ∧ path_matches destination.pathname c.options.path then
        upsert acc c.name (cookie_encoder enc_uri c c.value)
      else acc)
    initial_cookies
  match header with
  | none => combined
  | some parsed => parsed.foldl (fun acc p => upsert acc p.1 p.2) combined

/-- JS `Array.prototype.join('; ')` over `name=value` pairs: the final cookie
header string produced by `get_cookie_header`. -/
def join_cookie_pairs : List (Str × Str) → Str
  | [] => []
  | [p] => p.1 ++ ('=' :: p.2)
  | p :: q :: rest => p.1 ++ ('=' :: p.2) ++ str "; " ++ join_cookie_pairs (q :: rest)

/-- A CSP directive value as stored in the directives record: a source list,
a boolean flag, or an explicit `undefined` entry. -/
inductive DirValue
  | list (sources : List Str)
  | flag (b : Bool)
  | undef
deriving DecidableEq, Repr

/-- The CSP directives record (string-keyed, unique keys). -/
abbrev CspDirectives := List (Str × DirValue)

/-- JS truthiness of a directive value: every array (the empty array
included) is truthy, a flag is its own value, `undefined` is falsy. -/
def dir_truthy : DirValue → Bool
  | .list _ => true
  | .flag b => b
  | .undef => false

/-- Record lookup of a directive. -/
def dir_get (d : CspDirectives) (k : Str) : Option DirValue :=
  match d with
  | [] => none
  | (k0, v) :: rest => if k0 = k then some v else dir_get rest k

/-- Record assignment on the directives record. -/
def dir_upsert (d : CspDirectives) (k : Str) (v : DirValue) : CspDirectives :=
  match d with
  | [] => [(k, v)]
  | (k0, v0) :: rest => if k0 = k then (k, v) :: rest else (k0, v0) :: dir_upsert rest k v

/-- A directive read through JS truthiness as a source list: the stored list
(`[]` included, being truthy), else `none`. -/
def dir_src (d : CspDirectives) (k : Str) : Option (List Str) :=
  match dir_get d k with
  | some (.list l) => some l
  | _ => none

/-- JS `d[k] || d['default-src']`: the directive's own truthy source list,
falling back to `default-src`. -/
def effective_src (d : CspDirectives) (k : Str) : Option (List Str) :=
  match dir_src d k with
  | some l => some l
  | none => dir_src d (str "default-src")

/-- JS `d[k] || d['default-src'] || []` as used inside `get_header`. -/
def effective_src_list (d : CspDirectives) (k : Str) : List Str :=
  (effective_src d k).getD []

/-- Embedding of the `BaseProvider` constructor's `#script_needs_csp`: the
effective script source list exists and still has entries after removing
`unsafe-inline`. -/
def script_needs_csp (d : CspDirectives) : Bool :=
  match effective_src d (str "script-src") with
  | some l => (l.filter (fun v => v ≠ str "unsafe-inline")).length > 0
  | none => false

/-- State of a `BaseProvider`: construction arguments plus the accumulated
inline script/style sources. -/
structure BaseProvider where
  use_hashes : Bool
  directives : CspDirectives
  nonce : Str
  script_src : List Str
  style_src : List Str

/-- Embedding of the `BaseProvider` constructor: empty accumulated sources. -/
def BaseProvider.init (use_hashes : Bool) (directives : CspDirectives) (nonce : Str) :
    BaseProvider :=
  ⟨use_hashes, directives, nonce, [], []⟩

/-- Embedding of `BaseProvider.add_script(content)` with the ambient `sha256`
passed as `hash`: under hash mode every inline script pushes its own
`sha256-` token; under nonce mode only the first inline script pushes the
shared `nonce-` token. -/
def BaseProvider.add_script (hash : Str → Str) (p : BaseProvider) (content : Str) :
    BaseProvider :=
  if script_needs_csp p.directives then
    if p.use_hashes then
      { p with script_src := p.script_src ++ [str "sha256-" ++ hash content] }
    else if p.script_src.length = 0 then
      { p with script_src := p.script_src ++ [str "nonce-" ++ p.nonce] }
    else p
  else p

/-- Embedding of the directive-merging step of `BaseProvider.get_header`:
when inline sources were accumulated, `style-src`/`script-src` are set to the
effective base list followed by the accumulated sources. -/
def BaseProvider.get_header_directives (p : BaseProvider) : CspDirectives :=
  let d0 := p.directives
  let d1 := if p.style_src.length > 0 then
      dir_upsert d0 (str "style-src")
        (.list (effective_src_list d0 (str "style-src") ++ p.style_src))
    else d0
  let d2 := if p.script_src.length > 0 then
      dir_upsert d1 (str "script-src")
        (.list (effective_src_list d1 (str "script-src") ++ p.script_src))
    else d1
  d2

/-- The report-directive presence check of the `CspReportOnlyProvider`
constructor. In the source it reads `directives['report-to']?.length ?? 0 > 0`,
which by JS operator precedence is `length ?? (0 > 0)` — truthy exactly when
the directive is a list with nonzero length, as modelled here. -/
def report_dir_nonzero (d : CspDirectives) (k : Str) : Bool :=
  match dir_get d k with
  | some (.list l) => l.length ≠ 0
  | _ => false

/-- Embedding of the `CspReportOnlyProvider` constructor's validation:
construction throws exactly when some directive value is truthy and neither
`report-to` nor `report-uri` holds a non-empty list. -/
def csp_report_only_throws (d : CspDirectives) : Bool :=
  if ((d.map Prod.snd).filter dir_truthy).length > 0 then
    !report_dir_nonzero d (str "report-to") && !report_dir_nonzero d (str "report-uri")
  else false

/-- A directive value that is a non-empty source list — the claim's reading
of a "non-empty directive" (written from the claim, for comparison with the
code's truthiness test). -/
def dir_nonempty_list : DirValue → Bool
  | .list l => !l.isEmpty
  | _ => false

/-- The claim's construction-failure condition, written from its words: some
directive is non-empty and neither `report-to` nor `report-uri` is present. -/
def report_only_throws_claimed (d : CspDirectives) : Prop :=
  (∃ p ∈ d, dir_nonempty_list p.2 = true)
  ∧ dir_get d (str "report-to") = none
  ∧ dir_get d (str "report-uri") = none

/-- The amended construction-failure condition: some directive value is
truthy (any array, even empty, or a set flag) and neither `report-to` nor
`report-uri` is set to a non-empty list. -/
def report_only_throws_amended (d : CspDirectives) : Prop :=
  (∃ p ∈ d, dir_truthy p.2 = true)
  ∧ ¬ (∃ l, dir_get d (str "report-to") = some (.list l) ∧ l ≠ [])
  ∧ ¬ (∃ l, dir_get d (str "report-uri") = some (.list l) ∧ l ≠ [])

/-- Opaque application data carried by action results. -/
abbrev Data := Str

/-- A value returned by a user action: `undefined` (or another falsy, empty
result), an `ActionFailure` instance carrying status and data, or any other
(truthy) returned value. -/
inductive ActionRet
  | undef
  | failureVal (status : Nat) (data : Data)
  | value (data : Data)
deriving DecidableEq, Repr

/-- A value thrown by a user action, as seen after `normalize_error`. -/
inductive ActionErr
  | redirect (status : Nat) (location : Str)
  | httpError (status : Nat) (body : Str)
  | actionFailure (status : Nat) (data : Data)
  | other (message : Str)
deriving DecidableEq, Repr

/-- The result of `call_action`: a returned value or a thrown error. -/
inductive CallActionResult
  | ret (v : ActionRet)
  | thrown (e : ActionErr)
deriving DecidableEq, Repr

/-- Embedding of `check_incorrect_fail_use`: a thrown `ActionFailure` is
replaced by a corrective plain error. -/
def check_incorrect_fail_use : ActionErr → ActionErr
  | .actionFailure _ _ => .other (str "Cannot \"throw fail()\". Use \"return fail()\"")
  | e => e

/-- Outcome envelope produced by the JSON-protocol responder
`handle_action_json_request`. -/
inductive ActionJsonOutcome
  | success (status : Nat) (data : Str)
  | failure (status : Nat) (data : Str)
  | redirect (status : Nat) (location : Str)
  | error (status : Nat) (message : Str)
deriving DecidableEq, Repr

/-- Outcome produced by the page-action path `handle_action_request`. -/
inductive ActionPageResult
  | success (status : Nat) (data : Option Data)
  | failure (status : Nat) (data : Data)
  | redirect (status : Nat) (location : Str)
  | error (err : ActionErr)
deriving DecidableEq, Repr

/-- Embedding of the classification in `handle_action_json_request` (`stringify`
stands for `stringify_action_response`, `jsonify` for
`handle_error_and_jsonify`): a returned failure marker becomes a failure
envelope with its status; any other returned value a success envelope with
status `data ? 200 : 204`; a thrown redirect a redirect envelope; any other
thrown error an error envelope with the `HttpError` status or 500. -/
def handle_action_json (stringify : Option Data → Str) (jsonify : ActionErr → Str)
    (r : CallActionResult) : ActionJsonOutcome :=
  match r with
  | .ret (.failureVal st d) => .failure st (stringify (some d))
  | .ret (.value d) => .success 200 (stringify (some d))
  | .ret .undef => .success 204 (stringify none)
  | .thrown (.redirect st loc) => .redirect st loc
  | .thrown e =>
    let status := match e with
      | .httpError st _ => st
      | _ => 500
    .error status (jsonify (check_incorrect_fail_use e))

/-- Embedding of the classification in `handle_action_request` (the page
path): identical to the JSON responder except that a success result always
carries status 200, and the error outcome carries the (corrected) error value
itself. -/
def handle_action (r : CallActionResult) : ActionPageResult :=
  match r with
  | .ret (.failureVal st d) => .failure st d
  | .ret (.value d) => .success 200 (some d)
  | .ret .undef => .success 200 none
  | .thrown (.redirect st loc) => .redirect st loc
  | .thrown e => .error (check_incorrect_fail_use e)

/-- The claim's classification of the JSON responder, written from its words:
redirect / failure-with-status / success with 200 when data is present and
204 when empty / error otherwise. -/
def claimed_json_outcome (stringify : Option Data → Str) (jsonify : ActionErr → Str)
    (r : CallActionResult) : ActionJsonOutcome :=
  match r with
  | .thrown (.redirect st loc) => .redirect st loc
  | .ret (.failureVal st d) => .failure st (stringify (some d))
  | .ret (.value d) => .success 200 (stringify (some d))
  | .ret .undef => .success 204 (stringify none)
  | .thrown e =>
    .error (match e with | .httpError st _ => st | _ => 500)
      (jsonify (check_incorrect_fail_use e))

/-- The amended classification of the page-action path, written from the
amended claim's words: as the claim states it, except that a success outcome
always carries status 200 regardless of data. -/
def claimed_page_outcome (r : CallActionResult) : ActionPageResult :=
  match r with
  | .thrown (.redirect st loc) => .redirect st loc
  | .ret (.failureVal st d) => .failure st d
  | .ret (.value d) => .success 200 (some d)
  | .ret .undef => .success 200 none
  | .thrown e => .error (check_incorrect_fail_use e)

/-- Result of awaiting one depth's (server and universal) load promises
inside `render_page`. -/
inductive LoadResult
  | ok
  | thrownRedirect (status : Nat) (location : Str)
  | thrownHttpError (status : Nat)
  | thrownOther
deriving DecidableEq, Repr

/-- The page descriptor of a route: per-depth layout node indices (with gaps
for depths without a layout file), the leaf node index, and per-depth
error-boundary node indices. -/
structure PageNodeIndexes where
  layouts : List (Option Nat)
  leaf : Nat
  errors : List (Option Nat)
deriving DecidableEq, Repr

/-- The ordered node list `[...layouts, leaf]` assembled by `render_page`. -/
def page_nodes (page : PageNodeIndexes) : List (Option Nat) :=
  page.layouts ++ [some page.leaf]

/-- The response produced by `render_page`, abstracted to what the claims
observe: the early not-found text, a redirect, a re-render from an error
boundary (carrying the boundary's node index, the response status and the
compacted truncated branch with the synthesized error entry appended), the
static error document fallback, or a full render of the branch. -/
inductive RenderOutcome
  | notFound (body : Str) (status : Nat)
  | redirected (status : Nat) (location : Str)
  | boundary (errorNode : Nat) (status : Nat) (branch : List Nat)
  | staticError (status : Nat)
  | rendered (branch : List Nat)
deriving DecidableEq, Repr

/-- Embedding of `while (!branch[j]) j -= 1`: the nearest depth at or below
`j` holding a real branch entry. (When no entry exists the source loop would
never terminate; that situation is modelled as `none` and does not arise in
the claims, the root layout entry being present.) -/
def entry_rewind (branch : List (Option Nat)) : Nat → Option Nat
  | 0 => match branch.getD 0 none with
    | some _ => some 0
    | none => none
  | j + 1 => match branch.getD (j + 1) none with
    | some _ => some (j + 1)
    | none => entry_rewind branch j

/-- Embedding of `while (i--) if (page.errors[i]) ...`: search downward from
depth `i - 1` for the nearest declared error boundary, then rewind past
branch gaps; returns the boundary node index and the rewound depth. -/
def boundary_search (errors : List (Option Nat)) (branch : List (Option Nat)) :
    Nat → Option (Nat × Nat)
  | 0 => none
  | i + 1 =>
    match errors.getD i none with
    | some en =>
      match entry_rewind branch i with
      | some j => some (en, j)
      | none => none
    | none => boundary_search errors branch i

/-- Embedding of `compact`: drop the null gap entries. -/
def compact_nodes (branch : List (Option Nat)) : List Nat :=
  branch.filterMap id

/-- The awaiting loop of `render_page` over the node list: pushes a gap for
missing nodes; on a load success pushes the branch entry and continues; a
thrown redirect short-circuits; any other thrown error re-renders from the
nearest shallower error boundary (status from an `HttpError`, else 500) with
the truncated compacted branch plus the synthesized error entry, falling back
to the static error document when no boundary exists. Alongside the outcome
it returns the list of depths whose loads were awaited. -/
def render_loop (loads : Nat → LoadResult) (errors : List (Option Nat)) :
    List (Option Nat) → Nat → List (Option Nat) → RenderOutcome × List Nat
  | [], _, branch => (.rendered (compact_nodes branch), [])
  | node :: rest, i, branch =>
    match node with
    | none => render_loop loads errors rest (i + 1) (branch ++ [none])
    | some nd =>
      match loads i with
      | .ok =>
        let next := render_loop loads errors rest (i + 1) (branch ++ [some nd])
        (next.1, i :: next.2)
      | .thrownRedirect st loc => (.redirected st loc, [i])
      | er =>
        let status := match er with
          | .thrownHttpError st => st
          | _ => 500
        match boundary_search errors branch i with
        | some (en, j) =>
          (.boundary en status (compact_nodes (branch.take (j + 1)) ++ [en]), [i])
        | none => (.staticError status, [i])

/-- The maximum request depth permitted before assuming an infinite loop. -/
def MAX_DEPTH : Nat := 10

/-- Embedding of the head of `render_page`: a state depth beyond `MAX_DEPTH`
short-circuits to the plain not-found text response before any load runs;
otherwise the awaiting loop processes the node list. -/
def render_page_model (depth : Nat) (pathname : Str) (page : PageNodeIndexes)
    (loads : Nat → LoadResult) : RenderOutcome × List Nat :=
  if depth > MAX_DEPTH then (.notFound (str "Not found: " ++ pathname) 404, [])
  else render_loop loads page.errors (page_nodes page) 0 []

/-- Request state threaded through `respond`, reduced to the depth counter. -/
structure SSRState where
  depth : Nat
deriving DecidableEq, Repr

/-- Embedding of the state passed by `create_fetch` to the in-process
`respond` call for a same-origin self-fetch: the depth counter incremented by
one. -/
def create_fetch_respond_state (state : SSRState) : SSRState :=
  { state with depth := state.depth + 1 }

/-- A response as the ETag short-circuit in `respond` observes it. -/
structure SimpleResponse where
  status : Nat
  headers : List (Str × Str)
  body : Option Str
deriving DecidableEq, Repr

/-- Embedding of the weak-validator strip: `If-None-Match` values starting
with `W/"` lose their first two characters. -/
def strip_weak_validator (v : Str) : Str :=
  if js_startsWith v (str "W/\x22") then v.drop 2 else v

/-- The cache-relevant response headers copied onto a 304, in order. -/
def etag_304_copied_keys : List Str :=
  [str "cache-control", str "content-location", str "date", str "expires",
   str "vary", str "set-cookie"]

/-- Embedding of the conditional-request step of `respond`: when the resolved
response has status 200 and carries an `etag` header equal to the stripped
`If-None-Match` value, replace it by a bodyless 304 carrying the ETag, the
cache-relevant headers that are present, and `set-cookie`; otherwise leave
the response alone (`none`). -/
def etag_304_step (response : SimpleResponse) (if_none_match : Option Str) :
    Option SimpleResponse :=
  if response.status = 200 then
    match assoc_get response.headers (str "etag") with
    | none => none
    | some etag =>
      let inm := match if_none_match with
        | none => none
        | some v => some (strip_weak_validator v)
      if inm = some etag then
        some ⟨304,
          (str "etag", etag) ::
            etag_304_copied_keys.filterMap (fun k =>
              match assoc_get response.headers k with
              | some v => some (k, v)
              | none => none),
          none⟩
      else none
  else none

/-- A candidate route as seen by the dispatcher: an identifier, a compiled
pattern (modelled as the function producing the regex match array — full match
first, capture groups after), and the parameter descriptors. -/
structure Candidate where
  id : Str
  pattern : Str → Option (List (Option Str))
  params : List RouteParam

/-- Embedding of `decode_params`: decode every captured value in place. -/
def decode_params (dec : Str → Str) (params : List (Str × Str)) : List (Str × Str) :=
  params.map (fun p => (p.1, dec p.2))

/-- Pattern match plus parameter walk for one candidate: `none` when the
pattern does not match or the walk rejects. -/
def route_exec (matchers : Str → Str → Bool) (c : Candidate) (decoded : Str) :
    Option (List (Str × Str)) :=
  match c.pattern decoded with
  | none => none
  | some m => exec m c.params matchers

/-- Embedding of the dispatcher's matching loop in `respond`: candidates are
tried in declaration order; a candidate whose pattern matches but whose walk
fails is skipped; the first candidate whose walk succeeds is selected and its
parameters are decoded with `decode_params`. -/
def match_route (matchers : Str → Str → Bool) (dec : Str → Str)
    (routes : List Candidate) (decoded : Str) :
    Option (Candidate × List (Str × Str)) :=
  match routes with
  | [] => none
  | c :: rest =>
    match route_exec matchers c decoded with
    | some matched => some (c, decode_params dec matched)
    | none => match_route matchers dec rest decoded

/-- A string followed by a single slash ends with a slash. -/
lemma js_endsWith_append_slash (p : Str) : js_endsWith (p ++ str "/") (str "/") = true := by
  simp [js_endsWith, List.isSuffixOf_iff_suffix, str]

/-- Characterisation of the slash-suffix test. -/
lemma js_endsWith_slash_iff (p : Str) :
    js_endsWith p (str "/") = true ↔ ∃ q, p = q ++ ['/'] := by
  simp [js_endsWith, List.isSuffixOf_iff_suffix, str, List.suffix_iff_eq_append]
  constructor
  · intro h
    exact ⟨p.take (p.length - 1), h.symm⟩
  · rintro ⟨q, rfl⟩
    simp

/-- Under the `ignore` policy `normalize_path` is the identity. -/
lemma normalize_path_ignore (p : Str) : normalize_path p .ignore = p := by
  simp [normalize_path]

/-- If a path ends with a single (not double) trailing slash, dropping that
slash leaves a path with no trailing slash. -/
lemma dropLast_no_slash (q : Str) (hq : ¬ js_endsWith q (str "/") = true) :
    js_endsWith ((q ++ ['/']).dropLast) (str "/") = false := by
  rw [List.dropLast_concat]
  cases h : js_endsWith q (str "/") with
  | false => rfl
  | true => exact absurd h hq

/-- A path of the form `q ++ "//"` ends with a double slash. -/
lemma js_endsWith_double_slash (q : Str) :
    js_endsWith (q ++ ['/', '/']) (str "//") = true := by
  simp [js_endsWith, List.isSuffixOf_iff_suffix, str]

/-- C10 (counterexample): `normalize_path` is not idempotent as claimed — under
the `never` policy the path `/a//` maps to `/a/`, which maps again to `/a`. -/
theorem C10_counterexample :
    ¬ normalize_path (normalize_path (str "/a//") .never) .never
        = normalize_path (str "/a//") .never := by decide

/-- C10 (amended): `normalize_path` is idempotent under the `ignore` and
`always` policies for every path, and under `never` for every path that does
not end in a double slash `//`; the root path `/` is returned unchanged under
every policy. -/
theorem C10_normalize_path_idempotent :
    (∀ (p : Str) (t : TrailingSlash),
      (t = .ignore ∨ t = .always ∨ (t = .never ∧ js_endsWith p (str "//") = false)) →
      normalize_path (normalize_path p t) t = normalize_path p t)
    ∧ (∀ t : TrailingSlash, normalize_path (str "/") t = str "/") := by
  constructor
  · intro p t h
    rcases h with h | h | ⟨h, hdd⟩
    · subst h
      rw [normalize_path_ignore, normalize_path_ignore]
    · subst h
      by_cases hp : p = str "/"
      · simp [normalize_path, hp]
      · by_cases he : js_endsWith p (str "/") = true
        · simp [normalize_path, hp, he]
        · have h1 : normalize_path p .always = p ++ str "/" := by
            simp [normalize_path, hp, he]
          rw [h1]
          by_cases hr : p ++ str "/" = str "/"
          · simp [normalize_path, hr]
          · simp [normalize_path, hr, js_endsWith_append_slash]
    · subst h
      by_cases hp : p = str "/"
      · simp [normalize_path, hp]
      · by_cases he : js_endsWith p (str "/") = true
        · obtain ⟨q, rfl⟩ := (js_endsWith_slash_iff p).mp he
          have hq0 : ¬ q = [] := by
            intro hnil
            exact hp (by simp [hnil, str])
          have he2 : js_endsWith (q ++ ['/']) ['/'] = true := by
            simpa [str] using he
          have h1 : normalize_path (q ++ ['/']) .never = q := by
            simp [normalize_path, str, hq0, he2]
          rw [h1]
          by_cases hq : q = str "/"
          · simp [normalize_path, hq]
          · have hqe : js_endsWith q (str "/") = false := by
              cases hqq : js_endsWith q (str "/") with
              | false => rfl
              | true =>
                obtain ⟨r, rfl⟩ := (js_endsWith_slash_iff q).mp hqq
                have hdd2 : js_endsWith (r ++ ['/'] ++ ['/']) (str "//") = true := by
                  simpa [List.append_assoc] using js_endsWith_double_slash r
                rw [hdd2] at hdd
                simp at hdd
            simp [normalize_path, hq, hqe]
        · simp [normalize_path, hp, he]
  · intro t
    simp [normalize_path]

/-- C10 witness: the amended idempotence theorem applied at `/docs/` with the
`never` policy. -/
theorem C10_witness :
    normalize_path (normalize_path (str "/docs/") .never) .never
      = normalize_path (str "/docs/") .never :=
  C10_normalize_path_idempotent.1 (str "/docs/") .never
    (Or.inr (Or.inr ⟨rfl, by decide⟩))

/-- C3 (counterexample): the round trip fails for the pathname `/a` (which
does not carry the data suffix): stripping removes the whole string and the
re-added suffix yields `/__data.json`, not `/a`. -/
theorem C3_counterexample :
    ¬ normalize_path (add_data_suffix (strip_data_suffix (str "/a"))) .ignore
        = str "/a" := by decide

/-- C3 (amended): for every pathname of the form `q ++ "/__data.json"` whose
prefix `q` does not end in a slash,
`normalize_path(add_data_suffix(strip_data_suffix(p)), ignore) = p`. -/
theorem C3_data_suffix_roundtrip (q : Str) (hq : js_endsWith q (str "/") = false) :
    normalize_path (add_data_suffix (strip_data_suffix (q ++ DATA_SUFFIX))) .ignore
      = q ++ DATA_SUFFIX := by
  rw [normalize_path_ignore]
  have hstrip : strip_data_suffix (q ++ DATA_SUFFIX) = q := by
    simp [strip_data_suffix, List.length_append]
  rw [hstrip]
  simp [add_data_suffix, hq]

/-- C3 witness: the amended round trip applied at `q = /foo`. -/
theorem C3_witness :
    normalize_path (add_data_suffix (strip_data_suffix (str "/foo" ++ DATA_SUFFIX))) .ignore
      = str "/foo" ++ DATA_SUFFIX :=
  C3_data_suffix_roundtrip (str "/foo") (by decide)

/-- The matching loop selects a candidate exactly when the route list splits
into a failing head segment, the selected candidate, and an arbitrary tail. -/
lemma match_route_first_success (matchers : Str → Str → Bool) (dec : Str → Str)
    (decoded : Str) (c : Candidate) (ps : List (Str × Str)) :
    ∀ routes : List Candidate,
      match_route matchers dec routes decoded = some (c, ps) ↔
        ∃ pre post raw, routes = pre ++ c :: post ∧
          (∀ c2 ∈ pre, route_exec matchers c2 decoded = none) ∧
          route_exec matchers c decoded = some raw ∧
          ps = decode_params dec raw := by
  intro routes
  induction routes with
  | nil =>
    simp [match_route]
  | cons c0 rest ih =>
    cases h : route_exec matchers c0 decoded with
    | some matched =>
      simp only [match_route, h]
      constructor
      · intro heq
        have hpair := Option.some.inj heq
        have hc : c0 = c := congrArg Prod.fst hpair
        have hps : decode_params dec matched = ps := congrArg Prod.snd hpair
        exact ⟨[], rest, matched, by simp [hc], by simp, hc ▸ h, hps.symm⟩
      · rintro ⟨pre, post, raw, hdecomp, hfail, hsucc, hps⟩
        cases pre with
        | nil =>
          simp only [List.nil_append, List.cons.injEq] at hdecomp
          obtain ⟨hc, -⟩ := hdecomp
          subst hc
          rw [h] at hsucc
          obtain rfl := Option.some.inj hsucc
          simp [hps]
        | cons p0 pre2 =>
          simp only [List.cons_append, List.cons.injEq] at hdecomp
          obtain ⟨hc0, -⟩ := hdecomp
          have hfail0 := hfail p0 (by simp)
          rw [← hc0, h] at hfail0
          cases hfail0
    | none =>
      simp only [match_route, h]
      rw [ih]
      constructor
      · rintro ⟨pre, post, raw, hdecomp, hfail, hsucc, hps⟩
        refine ⟨c0 :: pre, post, raw, by simp [hdecomp], ?_, hsucc, hps⟩
        intro c2 hc2
        rcases List.mem_cons.mp hc2 with h1 | h1
        · subst h1; exact h
        · exact hfail c2 h1
      · rintro ⟨pre, post, raw, hdecomp, hfail, hsucc, hps⟩
        cases pre with
        | nil =>
          simp only [List.nil_append, List.cons.injEq] at hdecomp
          obtain ⟨hc, -⟩ := hdecomp
          subst hc
          rw [h] at hsucc
          cases hsucc
        | cons p0 pre2 =>
          simp only [List.cons_append, List.cons.injEq] at hdecomp
          obtain ⟨-, hrest⟩ := hdecomp
          exact ⟨pre2, post, raw, hrest, fun c2 hc2 => hfail c2 (by simp [hc2]), hsucc, hps⟩

/-- C2: (1) the dispatcher selects exactly the first declared candidate whose
pattern matches and whose parameter walk succeeds — the routes before it all
fail and the routes after it are irrelevant; (2) a walk that ends with a
nonzero buffered-optional count makes `exec` reject the candidate; (3)
appending further candidates never changes an existing selection. -/
theorem C2_route_matching :
    (∀ (matchers : Str → Str → Bool) (dec : Str → Str) (routes : List Candidate)
        (decoded : Str) (c : Candidate) (ps : List (Str × Str)),
      match_route matchers dec routes decoded = some (c, ps) ↔
        ∃ pre post raw, routes = pre ++ c :: post ∧
          (∀ c2 ∈ pre, route_exec matchers c2 decoded = none) ∧
          route_exec matchers c decoded = some raw ∧
          ps = decode_params dec raw)
    ∧ (∀ (mtch : List (Option Str)) (params : List RouteParam)
        (matchers : Str → Str → Bool) (result : List (Str × Str)) (buffered : Nat),
      exec_loop (mtch.drop 1) matchers params 0 0 [] = some (result, buffered) →
      buffered ≠ 0 → exec mtch params matchers = none)
    ∧ (∀ (matchers : Str → Str → Bool) (dec : Str → Str) (routes more : List Candidate)
        (decoded : Str) (r : Candidate × List (Str × Str)),
      match_route matchers dec routes decoded = some r →
      match_route matchers dec (routes ++ more) decoded = some r) := by
  refine ⟨?_, ?_, ?_⟩
  · intro matchers dec routes decoded c ps
    exact match_route_first_success matchers dec decoded c ps routes
  · intro mtch params matchers result buffered hloop hb
    rw [List.drop_one] at hloop
    simp [exec, hloop, hb]
  · intro matchers dec routes more decoded r hr
    obtain ⟨c, ps⟩ := r
    obtain ⟨pre, post, raw, hdecomp, hfail, hsucc, hps⟩ :=
      (match_route_first_success matchers dec decoded c ps routes).mp hr
    refine (match_route_first_success matchers dec decoded c ps (routes ++ more)).mpr
      ⟨pre, post ++ more, raw, ?_, hfail, hsucc, hps⟩
    simp [hdecomp]

/-- C2 witness: a concrete walk ending with `buffered = 1` (a single
optional+chained parameter whose matcher rejects) makes `exec` reject the
candidate. -/
theorem C2_witness :
    exec_loop ([some (str "/x"), some (str "x")].drop 1) (fun _ _ => false)
        [⟨str "a", some (str "m"), true, false, true⟩] 0 0 [] = some ([], 1)
    ∧ (1 : Nat) ≠ 0
    ∧ exec [some (str "/x"), some (str "x")]
        [⟨str "a", some (str "m"), true, false, true⟩] (fun _ _ => false) = none := by
  refine ⟨by decide, by decide, ?_⟩
  exact C2_route_matching.2.1 [some (str "/x"), some (str "x")]
    [⟨str "a", some (str "m"), true, false, true⟩] (fun _ _ => false) [] 1
    (by decide) (by decide)

/-- Updating a record binds the written key to the written value. -/
lemma assoc_get_upsert (m : List (Str × Str)) (k : Str) (v : Str) :
    assoc_get (upsert m k v) k = some v := by
  induction m with
  | nil => simp [upsert, assoc_get]
  | cons p rest ih =>
    obtain ⟨k0, v0⟩ := p
    by_cases h : k0 = k
    · simp [upsert, assoc_get, h]
    · simp [upsert, assoc_get, h, ih]

/-- C6: a cookie set during the request appears in the combined
per-destination cookie map exactly when its domain and path constraints match
the destination (stated for a name not present among the user-agent cookies
and no explicit override header); concretely, `path=/a` matches destination
path `/a/b` but not `/b`, and `domain=example.com` matches hostname
`sub.example.com` but not `other.com`, and the corresponding cookie is
included or omitted accordingly. -/
theorem C6_cookie_scoping :
    (∀ (enc_uri : Str → Str) (initial : List (Str × Str)) (c : Cookie)
        (destination : Destination),
      assoc_get initial c.name = none →
      assoc_get (get_cookie_header_map enc_uri initial [c] destination none) c.name
        = (if domain_matches destination.hostname c.options.domain
              ∧ path_matches destination.pathname c.options.path
           then some (cookie_encoder enc_uri c c.value) else none))
    ∧ path_matches (str "/a/b") (some (str "/a")) = true
    ∧ path_matches (str "/b") (some (str "/a")) = false
    ∧ domain_matches (str "sub.example.com") (some (str "example.com")) = true
    ∧ domain_matches (str "other.com") (some (str "example.com")) = false
    ∧ assoc_get (get_cookie_header_map (fun sv => sv) []
        [⟨str "sid", str "v1", ⟨none, some (str "/a"), none⟩⟩]
        ⟨str "example.com", str "/a/b"⟩ none) (str "sid") = some (str "v1")
    ∧ assoc_get (get_cookie_header_map (fun sv => sv) []
        [⟨str "sid", str "v1", ⟨none, some (str "/a"), none⟩⟩]
        ⟨str "example.com", str "/b"⟩ none) (str "sid") = none := by
  refine ⟨?_, by decide, by decide, by decide, by decide, by decide, by decide⟩
  intro enc_uri initial c destination h0
  by_cases h : domain_matches destination.hostname c.options.domain
      ∧ path_matches destination.pathname c.options.path
  · simp [get_cookie_header_map, h, assoc_get_upsert]
  · simp [get_cookie_header_map, h, h0]

/-- C6 witness: the scoping equivalence applied to a `domain=example.com`
cookie and the destination `sub.example.com`. -/
theorem C6_witness :
    assoc_get (get_cookie_header_map (fun sv => sv) []
        [⟨str "t", str "u", ⟨some (str "example.com"), none, none⟩⟩]
        ⟨str "sub.example.com", str "/"⟩ none) (str "t")
      = (if domain_matches (str "sub.example.com") (some (str "example.com"))
            ∧ path_matches (str "/") (none : Option Str)
         then some (cookie_encoder (fun sv => sv)
            ⟨str "t", str "u", ⟨some (str "example.com"), none, none⟩⟩ (str "u"))
         else none) :=
  C6_cookie_scoping.1 (fun sv => sv) []
    ⟨str "t", str "u", ⟨some (str "example.com"), none, none⟩⟩
    ⟨str "sub.example.com", str "/"⟩ (by decide)

/-- C9: a recursive self-fetch passes the inner `respond` a state whose depth
counter is incremented by one, and a page render whose state depth exceeds
`MAX_DEPTH = 10` short-circuits to the plain not-found text at 404 with no
load awaited. -/
theorem C9_recursive_fetch_depth :
    (∀ state : SSRState, (create_fetch_respond_state state).depth = state.depth + 1)
    ∧ (∀ (depth : Nat) (pathname : Str) (page : PageNodeIndexes)
        (loads : Nat → LoadResult),
      depth > MAX_DEPTH →
      render_page_model depth pathname page loads
        = (.notFound (str "Not found: " ++ pathname) 404, [])) := by
  constructor
  · intro state
    rfl
  · intro depth pathname page loads h
    simp [render_page_model, h]

/-- C9 witness: the depth guard applied at depth 11. -/
theorem C9_witness :
    render_page_model 11 (str "/loop") ⟨[some 0], 1, [none]⟩ (fun _ => .ok)
      = (.notFound (str "Not found: " ++ str "/loop") 404, []) :=
  C9_recursive_fetch_depth.2 11 (str "/loop") ⟨[some 0], 1, [none]⟩ (fun _ => .ok)
    (by decide)

/-- C1 (counterexample): with an error boundary declared at the root depth
and the nested layout's load throwing an unexpected error, `render_page`
re-renders from the root boundary (node 10, status 500, truncated branch plus
the synthesized error entry) — it does not fall back to the static error
document as the claim states. -/
theorem C1_counterexample :
    (render_page_model 0 (str "/nested") ⟨[some 0, some 1], 2, [some 10, none]⟩
        (fun i => if i = 1 then .thrownOther else .ok)).1
      = .boundary 10 500 [0, 10]
    ∧ ∀ st : Nat,
        (render_page_model 0 (str "/nested") ⟨[some 0, some 1], 2, [some 10, none]⟩
            (fun i => if i = 1 then .thrownOther else .ok)).1
          ≠ .staticError st := by
  constructor
  · decide
  · intro st h
    have h1 : (render_page_model 0 (str "/nested") ⟨[some 0, some 1], 2, [some 10, none]⟩
        (fun i => if i = 1 then .thrownOther else .ok)).1
        = .boundary 10 500 [0, 10] := by decide
    rw [h1] at h
    cases h

/-- C1 (amended): when a nested layout's load throws an unexpected error,
`render_page` re-renders from the nearest shallower error boundary at status
500 with the truncated compacted branch plus the synthesized error entry —
with a boundary only at the root, from that root boundary; the static error
document at 500 is used only when no shallower depth declares a boundary. -/
theorem C1_nested_error_boundary (n0 n1 leaf en : Nat) (pathname : Str)
    (loads : Nat → LoadResult) (h0 : loads 0 = .ok) (h1 : loads 1 = .thrownOther) :
    render_page_model 0 pathname ⟨[some n0, some n1], leaf, [some en, none]⟩ loads
      = (.boundary en 500 [n0, en], [0, 1])
    ∧ render_page_model 0 pathname ⟨[some n0, some n1], leaf, [none, none]⟩ loads
      = (.staticError 500, [0, 1]) := by
  constructor
  · simp [render_page_model, page_nodes, render_loop, h0, h1, boundary_search,
      entry_rewind, compact_nodes, MAX_DEPTH]
  · simp [render_page_model, page_nodes, render_loop, h0, h1, boundary_search,
      entry_rewind, compact_nodes, MAX_DEPTH]

/-- C1 witness: the amended boundary behaviour at concrete node indices. -/
theorem C1_witness :
    render_page_model 0 (str "/nested") ⟨[some 0, some 1], 2, [some 10, none]⟩
        (fun i => if i = 1 then .thrownOther else .ok)
      = (.boundary 10 500 [0, 10], [0, 1])
    ∧ render_page_model 0 (str "/nested") ⟨[some 0, some 1], 2, [none, none]⟩
        (fun i => if i = 1 then .thrownOther else .ok)
      = (.staticError 500, [0, 1]) :=
  C1_nested_error_boundary 0 1 2 10 (str "/nested")
    (fun i => if i = 1 then .thrownOther else .ok) (by decide) (by decide)

/-- C4 (counterexample): on the page-action path an action returning no data
is classified as a success with status 200, not 204 as the claim states for
both paths. -/
theorem C4_counterexample :
    handle_action (.ret .undef) = .success 200 none
    ∧ ¬ handle_action (.ret .undef) = .success 204 none := by decide

/-- C4 (amended): action invocation results classify as the claim states on
the JSON-protocol responder (success status 200 with data present, 204 when
empty); on the page-action path the classification is identical except that
a success outcome always carries status 200. -/
theorem C4_action_classification :
    ∀ (stringify : Option Data → Str) (jsonify : ActionErr → Str)
      (r : CallActionResult),
      handle_action_json stringify jsonify r = claimed_json_outcome stringify jsonify r
      ∧ handle_action r = claimed_page_outcome r := by
  intro stringify jsonify r
  constructor
  · cases r with
    | ret v => cases v <;> rfl
    | thrown e => cases e <;> rfl
  · cases r with
    | ret v => cases v <;> rfl
    | thrown e => cases e <;> rfl

/-- C7 (counterexample): a resolved response whose computed ETag matches the
request's `If-None-Match` is not short-circuited to a 304 when its status is
not 200 (here a 500 error document carrying an ETag). -/
theorem C7_counterexample :
    strip_weak_validator (str "\x22x\x22") = str "\x22x\x22"
    ∧ assoc_get [(str "etag", str "\x22x\x22")] (str "etag") = some (str "\x22x\x22")
    ∧ etag_304_step ⟨500, [(str "etag", str "\x22x\x22")], some (str "page")⟩
        (some (str "\x22x\x22")) = none := by decide

/-- C7 (amended): for a resolved response with status 200 whose `etag` header
equals the stripped `If-None-Match` value, the dispatcher short-circuits to a
bodyless 304 that carries the ETag and whose every header is the ETag, one of
the cache-relevant headers, or `set-cookie`, each copied from the resolved
response. -/
theorem C7_etag_304 (response : SimpleResponse) (inm etag : Str)
    (h200 : response.status = 200)
    (hetag : assoc_get response.headers (str "etag") = some etag)
    (hstrip : strip_weak_validator inm = etag) :
    ∃ hs, etag_304_step response (some inm) = some ⟨304, hs, none⟩
      ∧ assoc_get hs (str "etag") = some etag
      ∧ ∀ p ∈ hs, (p.1 = str "etag" ∨ p.1 ∈ etag_304_copied_keys)
          ∧ assoc_get response.headers p.1 = some p.2 := by
  refine ⟨(str "etag", etag) ::
      etag_304_copied_keys.filterMap (fun k =>
        match assoc_get response.headers k with
        | some v => some (k, v)
        | none => none), ?_, ?_, ?_⟩
  · simp [etag_304_step, h200, hetag, hstrip]
  · simp [assoc_get]
  · intro p hp
    rcases List.mem_cons.mp hp with h | h
    · subst h
      exact ⟨Or.inl rfl, hetag⟩
    · obtain ⟨k, hk, hmatch⟩ := List.mem_filterMap.mp h
      cases hv : assoc_get response.headers k with
      | none =>
        rw [hv] at hmatch
        cases hmatch
      | some v =>
        rw [hv] at hmatch
        obtain rfl := Option.some.inj hmatch
        exact ⟨Or.inr hk, hv⟩

/-- C7 witness: the 304 short-circuit at a concrete 200 response with a
weak-validator `If-None-Match`. -/
theorem C7_witness :
    ∃ hs, etag_304_step
        ⟨200, [(str "etag", str "\x22h\x22"), (str "vary", str "accept")],
          some (str "page")⟩ (some (str "W/\x22h\x22")) = some ⟨304, hs, none⟩
      ∧ assoc_get hs (str "etag") = some (str "\x22h\x22")
      ∧ ∀ p ∈ hs, (p.1 = str "etag" ∨ p.1 ∈ etag_304_copied_keys)
          ∧ assoc_get [(str "etag", str "\x22h\x22"), (str "vary", str "accept")] p.1
              = some p.2 :=
  C7_etag_304
    ⟨200, [(str "etag", str "\x22h\x22"), (str "vary", str "accept")], some (str "page")⟩
    (str "W/\x22h\x22") (str "\x22h\x22") rfl (by decide) (by decide)

/-- Appending a list to its own prefix satisfies the JS `startsWith` test. -/
lemma js_startsWith_append (a b : Str) : js_startsWith (a ++ b) a = true := by
  simp [js_startsWith, List.isPrefixOf_iff_prefix]

/-- Assigning a directive binds the written key to the written value. -/
lemma dir_get_upsert (d : CspDirectives) (k : Str) (v : DirValue) :
    dir_get (dir_upsert d k v) k = some v := by
  induction d with
  | nil => simp [dir_upsert, dir_get]
  | cons p rest ih =>
    obtain ⟨k0, v0⟩ := p
    by_cases h : k0 = k
    · simp [dir_upsert, dir_get, h]
    · simp [dir_upsert, dir_get, h, ih]

/-- Reading back an assigned source-list directive. -/
lemma dir_src_upsert (d : CspDirectives) (k : Str) (l : List Str) :
    dir_src (dir_upsert d k (.list l)) k = some l := by
  simp [dir_src, dir_get_upsert]

/-- C5: with a script source list that requires strengthening beyond
`unsafe-inline` (and no foreign `nonce-` token in it), adding two inline
scripts under nonce mode yields a merged `script-src` whose `nonce-` tokens
are exactly the single shared nonce token, while under hash mode the provider
accumulates exactly the two `sha256-` tokens of the two scripts — distinct
whenever their hashes differ — and merges both after the base list. -/
theorem C5_csp_inline_scripts (d : CspDirectives) (nonce : Str) (hash : Str → Str)
    (c1 c2 : Str) (hneeds : script_needs_csp d = true)
    (hbase : ∀ tok ∈ effective_src_list d (str "script-src"),
      js_startsWith tok (str "nonce-") = false) :
    (∃ l, dir_src (((BaseProvider.init false d nonce).add_script hash c1).add_script
          hash c2).get_header_directives (str "script-src") = some l
      ∧ l.filter (fun tok => js_startsWith tok (str "nonce-"))
          = [str "nonce-" ++ nonce])
    ∧ (((BaseProvider.init true d nonce).add_script hash c1).add_script hash c2).script_src
        = [str "sha256-" ++ hash c1, str "sha256-" ++ hash c2]
    ∧ dir_src (((BaseProvider.init true d nonce).add_script hash c1).add_script
          hash c2).get_header_directives (str "script-src")
        = some (effective_src_list d (str "script-src")
            ++ [str "sha256-" ++ hash c1, str "sha256-" ++ hash c2])
    ∧ (hash c1 ≠ hash c2 →
        str "sha256-" ++ hash c1 ≠ str "sha256-" ++ hash c2) := by
  have hp1 : (BaseProvider.init false d nonce).add_script hash c1
      = ⟨false, d, nonce, [str "nonce-" ++ nonce], []⟩ := by
    simp [BaseProvider.add_script, BaseProvider.init, hneeds]
  have hp2 : (((BaseProvider.init false d nonce).add_script hash c1).add_script hash c2)
      = ⟨false, d, nonce, [str "nonce-" ++ nonce], []⟩ := by
    rw [hp1]
    simp [BaseProvider.add_script, hneeds]
  have hq1 : (BaseProvider.init true d nonce).add_script hash c1
      = ⟨true, d, nonce, [str "sha256-" ++ hash c1], []⟩ := by
    simp [BaseProvider.add_script, BaseProvider.init, hneeds]
  have hq2 : (((BaseProvider.init true d nonce).add_script hash c1).add_script hash c2)
      = ⟨true, d, nonce, [str "sha256-" ++ hash c1, str "sha256-" ++ hash c2], []⟩ := by
    rw [hq1]
    simp [BaseProvider.add_script, hneeds]
  refine ⟨?_, ?_, ?_, ?_⟩
  · refine ⟨effective_src_list d (str "script-src") ++ [str "nonce-" ++ nonce], ?_, ?_⟩
    · rw [hp2]
      simp [BaseProvider.get_header_directives, dir_src_upsert]
    · rw [List.filter_append]
      have hbase0 : (effective_src_list d (str "script-src")).filter
          (fun tok => js_startsWith tok (str "nonce-")) = [] :=
        List.filter_eq_nil_iff.mpr (by
          intro tok htok
          simp [hbase tok htok])
      rw [hbase0]
      simp [js_startsWith_append]
  · rw [hq2]
  · rw [hq2]
    simp [BaseProvider.get_header_directives, dir_src_upsert]
  · intro hne heq
    exact hne (List.append_cancel_left heq)

/-- C5 witness: the nonce/hash behaviour at the directives
`script-src ['self']`, nonce `abc`, identity hash and scripts `x`, `y`. -/
theorem C5_witness :
    (∃ l, dir_src (((BaseProvider.init false [(str "script-src", DirValue.list [str "self"])]
            (str "abc")).add_script (fun sv => sv) (str "x")).add_script
          (fun sv => sv) (str "y")).get_header_directives (str "script-src") = some l
      ∧ l.filter (fun tok => js_startsWith tok (str "nonce-"))
          = [str "nonce-" ++ str "abc"])
    ∧ (((BaseProvider.init true [(str "script-src", DirValue.list [str "self"])]
          (str "abc")).add_script (fun sv => sv) (str "x")).add_script
        (fun sv => sv) (str "y")).script_src
        = [str "sha256-" ++ (fun sv => sv) (str "x"),
           str "sha256-" ++ (fun sv => sv) (str "y")]
    ∧ dir_src (((BaseProvider.init true [(str "script-src", DirValue.list [str "self"])]
          (str "abc")).add_script (fun sv => sv) (str "x")).add_script
        (fun sv => sv) (str "y")).get_header_directives (str "script-src")
        = some (effective_src_list [(str "script-src", DirValue.list [str "self"])]
              (str "script-src")
            ++ [str "sha256-" ++ (fun sv => sv) (str "x"),
                str "sha256-" ++ (fun sv => sv) (str "y")])
    ∧ ((fun sv => sv) (str "x") ≠ (fun sv => sv) (str "y") →
        str "sha256-" ++ (fun sv => sv) (str "x")
          ≠ str "sha256-" ++ (fun sv => sv) (str "y")) :=
  C5_csp_inline_scripts [(str "script-src", DirValue.list [str "self"])] (str "abc")
    (fun sv => sv) (str "x") (str "y") (by decide) (by decide)

/-- A positive truthy-filter count is the existence of a truthy directive. -/
lemma truthy_filter_pos_iff (d : CspDirectives) :
    ((d.map Prod.snd).filter dir_truthy).length > 0 ↔ ∃ p ∈ d, dir_truthy p.2 = true := by
  rw [gt_iff_lt, List.length_pos]
  constructor
  · intro h
    obtain ⟨v, hv⟩ := List.exists_mem_of_ne_nil _ h
    obtain ⟨hvmem, hvtruthy⟩ := List.mem_filter.mp hv
    obtain ⟨p, hp, rfl⟩ := List.mem_map.mp hvmem
    exact ⟨p, hp, hvtruthy⟩
  · rintro ⟨p, hp, hpt⟩ hnil
    have hmem : p.2 ∈ (d.map Prod.snd).filter dir_truthy :=
      List.mem_filter.mpr ⟨List.mem_map_of_mem _ hp, hpt⟩
    rw [hnil] at hmem
    cases hmem

/-- The report-directive check succeeds exactly for a non-empty list value. -/
lemma report_dir_nonzero_iff (d : CspDirectives) (k : Str) :
    report_dir_nonzero d k = true ↔
      ∃ l, dir_get d k = some (.list l) ∧ l ≠ [] := by
  unfold report_dir_nonzero
  cases h : dir_get d k with
  | none => simp
  | some v =>
    cases v with
    | list l => simp [List.length_eq_zero]
    | flag b => simp
    | undef => simp

/-- C8 (counterexample): with the single directive `script-src: []` — no
non-empty directive at all — the report-only constructor still throws,
refuting the claim's characterisation at this input. -/
theorem C8_counterexample :
    ¬ (csp_report_only_throws [(str "script-src", DirValue.list [])] = true ↔
        report_only_throws_claimed [(str "script-src", DirValue.list [])]) := by
  intro h
  obtain ⟨⟨p, hp, hne⟩, -, -⟩ := h.mp (by decide)
  rw [List.mem_singleton.mp hp] at hne
  exact absurd hne (by decide)

/-- C8 (amended): the report-only constructor throws exactly when some
directive value is truthy in the JS sense (any list, the empty list included,
or a set flag) and neither `report-to` nor `report-uri` is set to a non-empty
list. -/
theorem C8_report_only_validation :
    ∀ d : CspDirectives,
      csp_report_only_throws d = true ↔ report_only_throws_amended d := by
  intro d
  unfold csp_report_only_throws report_only_throws_amended
  by_cases hC : ((d.map Prod.snd).filter dir_truthy).length > 0
  · simp only [hC, if_true, Bool.and_eq_true, Bool.not_eq_true']
    constructor
    · rintro ⟨hto, huri⟩
      refine ⟨(truthy_filter_pos_iff d).mp hC, ?_, ?_⟩
      · intro hex
        have := (report_dir_nonzero_iff d (str "report-to")).mpr hex
        rw [this] at hto
        cases hto
      · intro hex
        have := (report_dir_nonzero_iff d (str "report-uri")).mpr hex
        rw [this] at huri
        cases huri
    · rintro ⟨-, hto, huri⟩
      constructor
      · cases h : report_dir_nonzero d (str "report-to") with
        | false => rfl
        | true => exact absurd ((report_dir_nonzero_iff d (str "report-to")).mp h) hto
      · cases h : report_dir_nonzero d (str "report-uri") with
        | false => rfl
        | true => exact absurd ((report_dir_nonzero_iff d (str "report-uri")).mp h) huri
  · simp only [hC, if_false]
    constructor
    · intro h
      cases h
    · rintro ⟨hex, -, -⟩
      exact absurd ((truthy_filter_pos_iff d).mpr hex) hC

end SvelteKit
